import Mathlib

/-!
Verification development for the order-panel component
(src/components/real-time/order-panel.tsx).

The component's data model and operations are shallowly embedded below:
JavaScript arrays become lists, JS numbers become integers, the four-value
status strings become an inductive type, the in-place `Array.prototype.sort`
becomes an explicit state-passing function returning the mutated collection,
and the asynchronous handlers become functions over an explicit state with
an oracle for remote-call outcomes and an event trace of issued API calls.
-/

/-- The four-value status enumeration `pending | preparing | served | ready`
used both for order-level status and per-item status. -/
inductive Status
  | pending
  | preparing
  | served
  | ready
deriving DecidableEq, Repr

/-- Position of a status in the forward lifecycle
`pending -> preparing -> served -> ready`. -/
def Status.rank : Status → Nat
  | .pending => 0
  | .preparing => 1
  | .served => 2
  | .ready => 3

/-- A line item of a raw dine-in order (`IDineInOrder.items` element):
`dish_id`, `quantity`, optional `instructions`. -/
structure OrderItem where
  dish_id : String
  quantity : Int
  instructions : Option String
deriving DecidableEq, Repr

/-- A raw dine-in order (`IDineInOrder`): `created_at` is modelled as the
integer returned by `new Date(created_at).getTime()`. -/
structure DineInOrder where
  id : String
  table_id : String
  created_at : Int
  updated_at : String
  order_status : Status
  items : List OrderItem
deriving DecidableEq, Repr

/-- A dish (`IDish`): identifier, name, price. -/
structure Dish where
  id : String
  name : String
  price : Int
deriving DecidableEq, Repr

/-- A table (`IDineInTable`); only `table_number` is read by the panel. -/
structure Table where
  table_number : String
deriving DecidableEq, Repr

/-- A per-dish status record inside a table-stats entry. -/
structure StatItem where
  dish_id : String
  item_status : Status
deriving DecidableEq, Repr

/-- A per-table statistics record (`IDineInTableStats`):
`{table_number, items: [{dish_id, item_status}]}`. -/
structure TableStat where
  table_number : String
  items : List StatItem
deriving DecidableEq, Repr

/-- An enriched line item of the derived view model (`IFilterOrder.items`
element). -/
structure ViewItem where
  dish_id : String
  dish_name : String
  quantity : Int
  total : Int
  instructions : Option String
  item_status : Status
deriving DecidableEq, Repr

/-- The derived view model per order (`IFilterOrder`). -/
structure ViewOrder where
  order_id : String
  table_id : String
  updated_at : String
  items : List ViewItem
  total : Int
  status : Status
deriving DecidableEq, Repr

/-- JavaScript `x || d` on `x = dish?.price`: `undefined` and `0` are falsy,
any other integer is truthy. -/
def jsOrPrice (x : Option Int) (d : Int) : Int :=
  match x with
  | none => d
  | some v => if v = 0 then d else v

/-- Embeds the item-enrichment body of `genOrders` (order-panel.tsx lines
75-88): resolve the dish by id, resolve the per-table item status record,
and build the enriched item with `total = (dish?.price || 0) * quantity`,
`dish_name = dish?.name ?? "Unknown Dish"`,
`item_status = statItem?.item_status || "pending"`. -/
def mkViewItem (dishes : List Dish) (tableData : Option TableStat)
    (item : OrderItem) : ViewItem :=
  let dish := dishes.find? (fun d => d.id == item.dish_id)
  let statItem :=
    (tableData.map (fun td => td.items.find? (fun i => i.dish_id == item.dish_id))).join
  { dish_id := item.dish_id
    dish_name := (dish.map Dish.name).getD "Unknown Dish"
    quantity := item.quantity
    total := jsOrPrice (dish.map Dish.price) 0 * item.quantity
    instructions := item.instructions
    item_status := (statItem.map StatItem.item_status).getD .pending }

/-- Embeds the per-order body of `genOrders` (order-panel.tsx lines 71-100):
resolve the table and the table-stats record by `table_id`, enrich the items,
and sum the line totals with `reduce((sum, item) => sum + item.total, 0)`. -/
def mkViewOrder (dishes : List Dish) (tables : List Table)
    (tableStats : List TableStat) (order : DineInOrder) : ViewOrder :=
  let table := tables.find? (fun t => t.table_number == order.table_id)
  let tableData := tableStats.find? (fun s => s.table_number == order.table_id)
  let orderItems := order.items.map (mkViewItem dishes tableData)
  { order_id := order.id
    table_id := (table.map Table.table_number).getD "Unknown"
    updated_at := order.updated_at
    items := orderItems
    total := orderItems.foldl (fun sum item => sum + item.total) 0
    status := order.order_status }

/-- One insertion step of the stable descending-by-`created_at` sort: the
element `x` is placed before the first already-sorted element `y` with
`y.created_at ≤ x.created_at` (matching the JS comparator
`(a, b) => b.getTime - a.getTime` under a stable sort). -/
def insertOrderDesc (x : DineInOrder) : List DineInOrder → List DineInOrder
  | [] => [x]
  | y :: ys =>
    if y.created_at ≤ x.created_at then x :: y :: ys
    else y :: insertOrderDesc x ys

/-- Stable sort of the orders array, descending by `created_at`; models the
result of `orders.sort((a, b) => new Date(b.created_at).getTime() - new
Date(a.created_at).getTime())`. -/
def jsSortOrders : List DineInOrder → List DineInOrder
  | [] => []
  | x :: xs => insertOrderDesc x (jsSortOrders xs)

/-- The four input collections read by the aggregator. -/
structure Feeds where
  orders : List DineInOrder
  dishes : List Dish
  tables : List Table
  tableStats : List TableStat
deriving DecidableEq, Repr

/-- Embeds `genOrders` (order-panel.tsx lines 69-100) together with its
effect on the input collections: `Array.prototype.sort` mutates `orders`
in place, so the post-state carries the sorted orders collection; the
other three collections are only read. Returns the post-state of the four
collections and the produced `ViewOrder` sequence. -/
def genOrders (f : Feeds) : Feeds × List ViewOrder :=
  let sorted := jsSortOrders f.orders
  ({ f with orders := sorted },
   sorted.map (mkViewOrder f.dishes f.tables f.tableStats))

/-- The `ViewOrder` sequence produced by the aggregator. -/
def genOrdersView (f : Feeds) : List ViewOrder :=
  (genOrders f).2

/-- The bucket of aggregated orders whose status equals `st`
(order-panel.tsx lines 103-106 and 123). -/
def bucket (f : Feeds) (st : Status) : List ViewOrder :=
  (genOrdersView f).filter (fun o => o.status == st)

/-- Embeds `tabCounts` (order-panel.tsx lines 102-107): the per-status
bucket sizes. -/
def tabCounts (f : Feeds) (st : Status) : Nat :=
  (bucket f st).length

/-- A remote status-transition call issued by `handleStatusChange`. -/
inductive ApiCall
  | markOrderAsPreparing (order_id : String)
  | markOrderAsServed (order_id : String)
  | markOrderAsReady (order_id : String)
deriving DecidableEq, Repr

/-- The local component state touched by `handleStatusChange`:
`filteredOrders`, `loadingOrderId`, and the console error log. -/
structure HSCState where
  filteredOrders : List ViewOrder
  loadingOrderId : Option String
  errorLog : List String
deriving DecidableEq, Repr

/-- The forward mapping of the switch in `handleStatusChange`
(order-panel.tsx lines 139-154): `pending -> preparing`,
`preparing -> served`, `served -> ready`; the `default` branch sets
`nextStatus = ready`. -/
def nextStatusOf : Status → Status
  | .pending => .preparing
  | .preparing => .served
  | .served => .ready
  | .ready => .ready

/-- The remote call issued by the switch in `handleStatusChange` for each
current status; the `default` branch (status `ready`) issues none. -/
def apiCallOf (order_id : String) : Status → Option ApiCall
  | .pending => some (.markOrderAsPreparing order_id)
  | .preparing => some (.markOrderAsServed order_id)
  | .served => some (.markOrderAsReady order_id)
  | .ready => none

/-- Outcome of one `handleStatusChange` invocation: the final local state,
the trace of issued remote calls, and whether the reconciliation wait was
entered. -/
structure HSCResult where
  state : HSCState
  calls : List ApiCall
  reconciled : Bool
deriving DecidableEq, Repr

/-- Embeds `handleStatusChange` (order-panel.tsx lines 126-183) as a
function of the stored token, an oracle giving each remote call's outcome
(`true` = resolves, `false` = rejects), the acted-on order and the current
local state. Sequencing follows the source: mark the order id as loading;
abort (logged) when no token; issue the switch's remote call; on success
apply the optimistic patch to `filteredOrders` and enter the reconciliation
wait; on rejection log the error and skip the patch; `finally` clears the
loading marker. -/
def handleStatusChange (token : Option String) (remoteOk : ApiCall → Bool)
    (order : ViewOrder) (s : HSCState) : HSCResult :=
  let s1 : HSCState := { s with loadingOrderId := some order.order_id }
  match token with
  | none =>
    { state := { s1 with
        errorLog := s1.errorLog ++ ["No access token found in localStorage"]
        loadingOrderId := none }
      calls := []
      reconciled := false }
  | some _ =>
    let next := nextStatusOf order.status
    let patch : List ViewOrder → List ViewOrder := fun l =>
      l.map (fun o =>
        if o.order_id == order.order_id then { o with status := next } else o)
    match apiCallOf order.order_id order.status with
    | some call =>
      if remoteOk call then
        { state := { s1 with
            filteredOrders := patch s1.filteredOrders
            loadingOrderId := none }
          calls := [call]
          reconciled := true }
      else
        { state := { s1 with
            errorLog := s1.errorLog ++ ["Failed to update order status:"]
            loadingOrderId := none }
          calls := [call]
          reconciled := false }
    | none =>
      { state := { s1 with
          filteredOrders := patch s1.filteredOrders
          loadingOrderId := none }
        calls := []
        reconciled := true }

/-- The render gate for the transition button (order-panel.tsx line 323):
the button block is rendered only when `order.status !== ready`. -/
def transitionButtonShown (st : Status) : Bool :=
  st != .ready

/-- The render gate for the per-item Remove button (order-panel.tsx line
299): shown only when the order status and the item status are both
`pending`. -/
def removeShown (orderStatus itemStatus : Status) : Bool :=
  orderStatus == .pending && itemStatus == .pending

/-- A submitted item entry of `updateOrDeleteOrder`: only `dish_id` and
`quantity` (order-panel.tsx line 204). -/
structure SubmitItem where
  dish_id : String
  quantity : Int
deriving DecidableEq, Repr

/-- A `updateOrDeleteOrder(order_id, {items})` remote call. -/
structure RemoveCall where
  order_id : String
  items : List SubmitItem
deriving DecidableEq, Repr

/-- Outcome of one `handleRemoveItem` invocation: final `filteredOrders`
(the optimistic patch in this path is commented out in the source, so the
list is threaded through unchanged), the trace of issued
`updateOrDeleteOrder` calls, and the console error log. -/
structure RemoveResult where
  filteredOrders : List ViewOrder
  calls : List RemoveCall
  errorLog : List String
deriving DecidableEq, Repr

/-- Embeds `handleRemoveItem` (order-panel.tsx lines 200-226) as a function
of the confirmation-dialog answer, the stored token, the remote outcome,
the order, the target dish id and the current `filteredOrders`. When
confirmed: build `updatedItems` by filtering out the target dish id and
projecting to `{dish_id, quantity}`, abort (logged) when no token, else
issue `updateOrDeleteOrder`; a rejection is logged; no local patch is
applied in any branch. -/
def handleRemoveItem (confirmed : Bool) (token : Option String)
    (remoteOk : Bool) (order : ViewOrder) (dish_id : String)
    (filteredOrders : List ViewOrder) : RemoveResult :=
  if confirmed then
    let updatedItems : List SubmitItem :=
      (order.items.filter (fun item => item.dish_id != dish_id)).map
        (fun item => { dish_id := item.dish_id, quantity := item.quantity })
    match token with
    | none =>
      { filteredOrders := filteredOrders
        calls := []
        errorLog := ["No access token found in localStorage"] }
    | some _ =>
      if remoteOk then
        { filteredOrders := filteredOrders
          calls := [{ order_id := order.order_id, items := updatedItems }]
          errorLog := [] }
      else
        { filteredOrders := filteredOrders
          calls := [{ order_id := order.order_id, items := updatedItems }]
          errorLog := ["Failed to update order:"] }
  else
    { filteredOrders := filteredOrders, calls := [], errorLog := [] }

/-- The tab/filter state of the panel: the selected tab and the
`filteredOrders` list exposed as the visible set. -/
structure PanelModel where
  activeTab : Status
  filteredOrders : List ViewOrder
deriving DecidableEq, Repr

/-- An event changing the tab/filter state:
`selectTab` (a tab click followed by the filtering effect of
order-panel.tsx lines 122-124, which has `activeTab` in its dependency
list), `feedsChanged` (the same effect re-run after an upstream feed
change), and `patch` (the optimistic update of order-panel.tsx lines
157-159 performed by a successful `handleStatusChange`). -/
inductive PanelStep
  | selectTab (t : Status)
  | feedsChanged
  | patch (order_id : String) (next : Status)
deriving DecidableEq, Repr

/-- One transition of the tab/filter state under fixed upstream feeds. -/
def stepPanel (f : Feeds) (s : PanelModel) : PanelStep → PanelModel
  | .selectTab t =>
    { activeTab := t
      filteredOrders := (genOrdersView f).filter (fun o => o.status == t) }
  | .feedsChanged =>
    { s with
      filteredOrders :=
        (genOrdersView f).filter (fun o => o.status == s.activeTab) }
  | .patch order_id next =>
    { s with
      filteredOrders :=
        s.filteredOrders.map (fun o =>
          if o.order_id == order_id then { o with status := next } else o) }

/-- Run a sequence of tab/filter events from an initial state. -/
def runPanel (f : Feeds) (s : PanelModel) (steps : List PanelStep) : PanelModel :=
  steps.foldl (stepPanel f) s

/-- The loading-guard state: the single `loadingOrderId` slot
(order-panel.tsx line 38) together with the multiset of order ids whose
`handleStatusChange` invocation has started but whose `finally` block has
not yet run. -/
structure GuardState where
  loadingOrderId : Option String
  inFlight : List String
deriving DecidableEq, Repr

/-- The `disabled` condition of an order's transition button
(order-panel.tsx line 327): `loadingOrderId === order.order_id`. -/
def disabledFor (s : GuardState) (order_id : String) : Bool :=
  s.loadingOrderId == some order_id

/-- A guard event: a click starting `handleStatusChange` for an order
(possible only when its button is not disabled; it runs
`setLoadingOrderId(order.order_id)`), or the `finally` block of an
in-flight invocation completing (`setLoadingOrderId(null)`). -/
inductive GuardStep
  | start (order_id : String)
  | finish (order_id : String)
deriving DecidableEq, Repr

/-- One transition of the guard state; `none` means the event cannot occur
(a click on a disabled button, or a finish with no matching in-flight
invocation). -/
def stepGuard (s : GuardState) : GuardStep → Option GuardState
  | .start order_id =>
    if disabledFor s order_id then none
    else some { loadingOrderId := some order_id
                inFlight := order_id :: s.inFlight }
  | .finish order_id =>
    if order_id ∈ s.inFlight then
      some { loadingOrderId := none
             inFlight := s.inFlight.erase order_id }
    else none

/-- Run a sequence of guard events, failing if any event cannot occur. -/
def runGuard (s : GuardState) : List GuardStep → Option GuardState
  | [] => some s
  | e :: es => (stepGuard s e).bind (fun s1 => runGuard s1 es)

/-- State of the reconciliation wait of `handleStatusChange`
(order-panel.tsx lines 162-176): whether the `setInterval` handle is still
active, whether the `setTimeout` is still pending, and the promise
resolution (`some true` on confirmed success, `some false` on timeout). -/
structure WaitState where
  intervalActive : Bool
  timeoutPending : Bool
  resolved : Option Bool
deriving DecidableEq, Repr

/-- The initial wait state set up by the promise executor: a repeating
500-unit interval and a pending 10000-unit timeout, promise unresolved. -/
def initWait : WaitState :=
  { intervalActive := true, timeoutPending := true, resolved := none }

/-- The timer firing instants of the wait: the interval fires at
500, 1000, ..., 10000 and the timeout fires at 10000. -/
def tickTimes : List Nat :=
  (List.range 20).map (fun k => 500 * (k + 1))

/-- Processing of the timers due at instant `t`, given the feed oracle
(`feed t = true` when `orders.find(o => o.id === order.order_id)` exists
at instant `t` with `order_status === nextStatus`). The interval callback
(registered first) runs `clearInterval` and resolves `true` when the feed
confirms; the timeout callback, due only at 10000, runs `clearInterval`
and resolves `false`. Resolving an already-resolved promise is a no-op;
`clearTimeout` is never called. -/
def stepTick (feed : Nat → Bool) (s : WaitState) (t : Nat) : WaitState :=
  let s1 :=
    if s.intervalActive && feed t then
      { s with
        intervalActive := false
        resolved := match s.resolved with
          | none => some true
          | some v => some v }
    else s
  if t == 10000 && s1.timeoutPending then
    { intervalActive := false
      timeoutPending := false
      resolved := match s1.resolved with
        | none => some false
        | some v => some v }
  else s1

/-- The wait state after the first `n` timer instants. -/
def runWaitUpTo (feed : Nat → Bool) (n : Nat) : WaitState :=
  (tickTimes.take n).foldl (stepTick feed) initWait

/-- The wait state after all timer instants up to and including 10000. -/
def runWait (feed : Nat → Bool) : WaitState :=
  tickTimes.foldl (stepTick feed) initWait

/-- Concrete raw order o1 (older, created at 1). -/
def exOrder1 : DineInOrder :=
  { id := "o1", table_id := "T1", created_at := 1, updated_at := "u1"
    order_status := .pending
    items := [{ dish_id := "d1", quantity := 2, instructions := none }] }

/-- Concrete raw order o2 (newer, created at 2). -/
def exOrder2 : DineInOrder :=
  { id := "o2", table_id := "T2", created_at := 2, updated_at := "u2"
    order_status := .preparing
    items := [{ dish_id := "dX", quantity := 3, instructions := none }] }

/-- Concrete dish list containing only d1 (price 50). -/
def exDishes : List Dish :=
  [{ id := "d1", name := "Dosa", price := 50 }]

/-- Concrete feeds: two orders given oldest-first, one dish, no tables,
no table stats. -/
def exFeeds : Feeds :=
  { orders := [exOrder1, exOrder2], dishes := exDishes
    tables := [], tableStats := [] }

/-- Concrete feeds with a single pending order. -/
def exFeeds1 : Feeds :=
  { orders := [exOrder1], dishes := exDishes, tables := [], tableStats := [] }

/-- The view order produced by the aggregator for exFeeds1. -/
def exView1 : ViewOrder :=
  mkViewOrder exFeeds1.dishes exFeeds1.tables exFeeds1.tableStats exOrder1

/-- Concrete view order used as a handler input. -/
def exViewPending : ViewOrder :=
  { order_id := "o1", table_id := "T1", updated_at := "u1"
    items := [], total := 0, status := .pending }

/-- Concrete initial handler state containing exViewPending. -/
def exHSC : HSCState :=
  { filteredOrders := [exViewPending], loadingOrderId := none, errorLog := [] }

/-- The descending-creation-time relation used by the orders sort. -/
def createdDesc (a b : DineInOrder) : Prop :=
  b.created_at ≤ a.created_at

lemma insertOrderDesc_perm (x : DineInOrder) (l : List DineInOrder) :
    List.Perm (insertOrderDesc x l) (x :: l) := by
  induction l with
  | nil => simp [insertOrderDesc]
  | cons y ys ih =>
    simp only [insertOrderDesc]
    split
    · exact List.Perm.refl _
    · exact (List.Perm.cons y ih).trans (List.Perm.swap x y ys)

lemma jsSortOrders_perm (l : List DineInOrder) :
    List.Perm (jsSortOrders l) l := by
  induction l with
  | nil => simp [jsSortOrders]
  | cons x xs ih =>
    exact (insertOrderDesc_perm x (jsSortOrders xs)).trans (List.Perm.cons x ih)

lemma mem_jsSortOrders {a : DineInOrder} {l : List DineInOrder} :
    a ∈ jsSortOrders l ↔ a ∈ l :=
  (jsSortOrders_perm l).mem_iff

lemma mem_insertOrderDesc {a x : DineInOrder} {l : List DineInOrder} :
    a ∈ insertOrderDesc x l ↔ a = x ∨ a ∈ l := by
  rw [(insertOrderDesc_perm x l).mem_iff, List.mem_cons]

lemma pairwise_insertOrderDesc {x : DineInOrder} {l : List DineInOrder}
    (hl : l.Pairwise createdDesc) :
    (insertOrderDesc x l).Pairwise createdDesc := by
  induction l with
  | nil => simp [insertOrderDesc, List.Pairwise]
  | cons y ys ih =>
    rw [List.pairwise_cons] at hl
    simp only [insertOrderDesc]
    split
    · rename_i hxy
      refine List.pairwise_cons.mpr ⟨?_, List.pairwise_cons.mpr hl⟩
      intro z hz
      rcases List.mem_cons.mp hz with hz | hz
      · subst hz; exact hxy
      · exact le_trans (hl.1 z hz) hxy
    · rename_i hxy
      push_neg at hxy
      refine List.pairwise_cons.mpr ⟨?_, ih hl.2⟩
      intro z hz
      rcases mem_insertOrderDesc.mp hz with hz | hz
      · subst hz; exact le_of_lt hxy
      · exact hl.1 z hz

lemma jsSortOrders_pairwise (l : List DineInOrder) :
    (jsSortOrders l).Pairwise createdDesc := by
  induction l with
  | nil => simp [jsSortOrders, List.Pairwise]
  | cons x xs ih => exact pairwise_insertOrderDesc ih

lemma foldl_add_total (l : List ViewItem) (a : Int) :
    l.foldl (fun sum item => sum + item.total) a
      = a + (l.map ViewItem.total).sum := by
  induction l generalizing a with
  | nil => simp
  | cons x xs ih =>
    simp only [List.foldl_cons, List.map_cons, List.sum_cons, ih]
    ring

lemma filter_status_partition (l : List ViewOrder) :
    (l.filter (fun o => o.status == Status.pending)).length
      + (l.filter (fun o => o.status == Status.preparing)).length
      + (l.filter (fun o => o.status == Status.served)).length
      + (l.filter (fun o => o.status == Status.ready)).length
      = l.length := by
  induction l with
  | nil => simp
  | cons x xs ih =>
    cases hx : x.status <;>
      simp [List.filter_cons, hx, ← ih] <;> omega

lemma stepTick_preserves_resolved_inactive (feed : Nat → Bool) (s : WaitState)
    (t : Nat) (h : s.resolved.isSome = true → s.intervalActive = false) :
    (stepTick feed s t).resolved.isSome = true →
      (stepTick feed s t).intervalActive = false := by
  simp only [stepTick]
  by_cases h1 : (s.intervalActive && feed t) = true <;>
    simp only [h1, if_true, if_false, Bool.false_eq_true] <;> split <;>
      simp_all

lemma foldl_preserves_resolved_inactive (feed : Nat → Bool)
    (l : List Nat) (s : WaitState)
    (h : s.resolved.isSome = true → s.intervalActive = false) :
    (l.foldl (stepTick feed) s).resolved.isSome = true →
      (l.foldl (stepTick feed) s).intervalActive = false := by
  induction l generalizing s with
  | nil => simpa using h
  | cons t ts ih =>
    exact ih (stepTick feed s t)
      (stepTick_preserves_resolved_inactive feed s t h)

lemma stepTick_timeout_unchanged (feed : Nat → Bool) (s : WaitState)
    (t : Nat) (ht : t ≠ 10000) :
    (stepTick feed s t).timeoutPending = s.timeoutPending := by
  have ht2 : (t == 10000) = false := by simpa using ht
  simp only [stepTick, ht2, Bool.false_and, Bool.false_eq_true, if_false]
  split <;> rfl

lemma foldl_timeout_unchanged (feed : Nat → Bool) (l : List Nat)
    (s : WaitState) (hl : ∀ t ∈ l, t ≠ 10000) :
    (l.foldl (stepTick feed) s).timeoutPending = s.timeoutPending := by
  induction l generalizing s with
  | nil => rfl
  | cons t ts ih =>
    rw [List.foldl_cons,
      ih (stepTick feed s t) (fun u hu => hl u (List.mem_cons_of_mem t hu)),
      stepTick_timeout_unchanged feed s t (hl t (List.mem_cons_self t ts))]

lemma mem_take_tickTimes_ne (n : Nat) (hn : n ≤ 19) :
    ∀ t ∈ tickTimes.take n, t ≠ 10000 := by
  intro t ht
  rw [tickTimes, ← List.map_take, List.take_range] at ht
  rcases List.mem_map.mp ht with ⟨k, hk, rfl⟩
  have hk2 : k < min n 20 := List.mem_range.mp hk
  omega

lemma runWait_eq_last (feed : Nat → Bool) :
    runWait feed = stepTick feed (runWaitUpTo feed 19) 10000 := by
  have h : tickTimes = tickTimes.take 19 ++ [10000] := by decide
  rw [runWait, runWaitUpTo]
  conv_lhs => rw [h]
  rw [List.foldl_append, List.foldl_cons, List.foldl_nil]

lemma stepTick_at_10000 (feed : Nat → Bool) (s : WaitState)
    (hs : s.timeoutPending = true) :
    (stepTick feed s 10000).intervalActive = false
    ∧ (stepTick feed s 10000).timeoutPending = false
    ∧ (stepTick feed s 10000).resolved.isSome = true := by
  simp only [stepTick]
  by_cases h1 : (s.intervalActive && feed 10000) = true <;>
    simp only [h1, if_true, if_false, Bool.false_eq_true] <;>
      cases hr : s.resolved <;> simp_all

lemma runWaitUpTo_timeout_pending (feed : Nat → Bool) (n : Nat)
    (hn : n ≤ 19) : (runWaitUpTo feed n).timeoutPending = true := by
  rw [runWaitUpTo,
    foldl_timeout_unchanged feed _ initWait (mem_take_tickTimes_ne n hn)]
  rfl

/-- Claim C1 counterexample: with a feed that confirms at the very first
check (instant 500), the promise resolves successfully and the repeating
interval is cleared, yet the timeout timer is still pending — the source
never calls clearTimeout, so the two timers are not cancelled together and
a pending timer of the timeout kind remains. -/
theorem claim_C1_counterexample :
    (runWaitUpTo (fun t => t == 500) 1).resolved = some true
    ∧ (runWaitUpTo (fun t => t == 500) 1).intervalActive = false
    ∧ (runWaitUpTo (fun t => t == 500) 1).timeoutPending = true := by
  decide

/-- Claim C1 (amended): the reconciliation wait polls the feed every 500
time-units for at most 10000 time-units; whenever the success condition
fires (at any instant before the last one), the repeating check is
cancelled at once, but the timeout remains pending — only when the 10000
instant is reached are both timers gone, the timeout having fired rather
than been cancelled, and the promise is resolved by then in every run. -/
theorem claim_C1_amended (feed : Nat → Bool) (n : Nat) (hn : n ≤ 19)
    (hres : (runWaitUpTo feed n).resolved = some true) :
    (runWaitUpTo feed n).intervalActive = false
    ∧ (runWaitUpTo feed n).timeoutPending = true
    ∧ (runWait feed).intervalActive = false
    ∧ (runWait feed).timeoutPending = false
    ∧ (runWait feed).resolved.isSome = true := by
  have hinv : (runWaitUpTo feed n).resolved.isSome = true →
      (runWaitUpTo feed n).intervalActive = false := by
    rw [runWaitUpTo]
    exact foldl_preserves_resolved_inactive feed _ initWait
      (by intro h; simp [initWait] at h)
  have hlast := stepTick_at_10000 feed (runWaitUpTo feed 19)
    (runWaitUpTo_timeout_pending feed 19 (le_refl 19))
  rw [← runWait_eq_last] at hlast
  exact ⟨hinv (by rw [hres]; rfl),
    runWaitUpTo_timeout_pending feed n hn,
    hlast.1, hlast.2.1, hlast.2.2⟩

/-- Claim C1 amended witness: the amended theorem applied to the feed that
confirms at instant 500, after one processed instant. -/
theorem claim_C1_amended_witness :
    ((1 ≤ 19 ∧ (runWaitUpTo (fun t => t == 500) 1).resolved = some true)
    ∧ ((runWaitUpTo (fun t => t == 500) 1).intervalActive = false
      ∧ (runWaitUpTo (fun t => t == 500) 1).timeoutPending = true
      ∧ (runWait (fun t => t == 500)).intervalActive = false
      ∧ (runWait (fun t => t == 500)).timeoutPending = false
      ∧ (runWait (fun t => t == 500)).resolved.isSome = true)) :=
  ⟨⟨by decide, by decide⟩,
    claim_C1_amended (fun t => t == 500) 1 (by decide) (by decide)⟩

/-- Claim C2 counterexample: on the concrete feeds whose two orders arrive
oldest-first, computing the ViewOrder sequence leaves the orders collection
sorted newest-first — `Array.prototype.sort` mutates the input array in
place, so the orders collection does not keep its original element
order. -/
theorem claim_C2_counterexample :
    (genOrders exFeeds).1.orders ≠ exFeeds.orders := by
  decide

/-- Claim C2 (amended): the aggregator reads its four inputs and leaves
dishes, tables and table-item-statuses unchanged, but it sorts the orders
collection in place: afterwards the orders collection is a permutation of
the original, ordered by descending creation time, and the produced
ViewOrder sequence is exactly the enrichment of that sorted collection. -/
theorem claim_C2_amended (f : Feeds) :
    (genOrders f).1.dishes = f.dishes
    ∧ (genOrders f).1.tables = f.tables
    ∧ (genOrders f).1.tableStats = f.tableStats
    ∧ List.Perm (genOrders f).1.orders f.orders
    ∧ ((genOrders f).1.orders).Pairwise createdDesc
    ∧ (genOrders f).2
        = ((genOrders f).1.orders).map (mkViewOrder f.dishes f.tables f.tableStats) := by
  refine ⟨rfl, rfl, rfl, ?_, ?_, rfl⟩
  · exact jsSortOrders_perm f.orders
  · exact jsSortOrders_pairwise f.orders

/-- Claim C3: advance(order) determines the next status by the fixed
forward mapping pending→preparing, preparing→served, served→ready, and
issues exactly the remote transition call corresponding to the current
status; each step raises the lifecycle rank by exactly one (no skip, no
backward move); and the transition button is not rendered for a ready
order. -/
theorem claim_C3 (tk : String) (remoteOk : ApiCall → Bool)
    (order : ViewOrder) (s : HSCState) (call : ApiCall)
    (hcall : apiCallOf order.order_id order.status = some call) :
    (handleStatusChange (some tk) remoteOk order s).calls = [call]
    ∧ nextStatusOf Status.pending = Status.preparing
    ∧ nextStatusOf Status.preparing = Status.served
    ∧ nextStatusOf Status.served = Status.ready
    ∧ apiCallOf order.order_id Status.pending
        = some (ApiCall.markOrderAsPreparing order.order_id)
    ∧ apiCallOf order.order_id Status.preparing
        = some (ApiCall.markOrderAsServed order.order_id)
    ∧ apiCallOf order.order_id Status.served
        = some (ApiCall.markOrderAsReady order.order_id)
    ∧ (∀ st, st ≠ Status.ready → (nextStatusOf st).rank = st.rank + 1)
    ∧ (∀ st, transitionButtonShown st = true ↔ st ≠ Status.ready) := by
  refine ⟨?_, rfl, rfl, rfl, rfl, rfl, rfl, ?_, ?_⟩
  · simp only [handleStatusChange, hcall]
    split <;> rfl
  · intro st hst
    cases st <;> simp_all [nextStatusOf, Status.rank]
  · intro st
    cases st <;> simp [transitionButtonShown]

/-- Claim C3 witness: a pending order with a token present issues exactly
the markOrderAsPreparing call. -/
theorem claim_C3_witness :
    apiCallOf "o1" Status.pending = some (ApiCall.markOrderAsPreparing "o1")
    ∧ (handleStatusChange (some "tk") (fun _ => true) exViewPending exHSC).calls
        = [ApiCall.markOrderAsPreparing "o1"] :=
  ⟨by decide,
    (claim_C3 "tk" (fun _ => true) exViewPending exHSC
      (ApiCall.markOrderAsPreparing "o1") (by decide)).1⟩

/-- Claim C5: when the remote status-transition call of advance(order)
rejects, the optimistic patch is never applied (filteredOrders is exactly
the initial list), the loading marker is cleared, exactly one call was
issued (no retry), the error is appended to the log, and the
reconciliation wait is never entered. -/
theorem claim_C5 (tk : String) (remoteOk : ApiCall → Bool)
    (order : ViewOrder) (s : HSCState) (call : ApiCall)
    (hcall : apiCallOf order.order_id order.status = some call)
    (hfail : remoteOk call = false) :
    (handleStatusChange (some tk) remoteOk order s).state.filteredOrders
        = s.filteredOrders
    ∧ (handleStatusChange (some tk) remoteOk order s).state.loadingOrderId = none
    ∧ (handleStatusChange (some tk) remoteOk order s).calls = [call]
    ∧ (handleStatusChange (some tk) remoteOk order s).state.errorLog
        = s.errorLog ++ ["Failed to update order status:"]
    ∧ (handleStatusChange (some tk) remoteOk order s).reconciled = false := by
  simp [handleStatusChange, hcall, hfail]

/-- Claim C5 witness: a rejecting markOrderAsPreparing call on a pending
order leaves the visible orders untouched. -/
theorem claim_C5_witness :
    (apiCallOf "o1" Status.pending = some (ApiCall.markOrderAsPreparing "o1")
     ∧ (fun _ : ApiCall => false) (ApiCall.markOrderAsPreparing "o1") = false)
    ∧ (handleStatusChange (some "tk") (fun _ => false) exViewPending exHSC).state.filteredOrders
        = exHSC.filteredOrders :=
  ⟨⟨by decide, rfl⟩,
    (claim_C5 "tk" (fun _ => false) exViewPending exHSC
      (ApiCall.markOrderAsPreparing "o1") (by decide) rfl).1⟩

/-- Concrete enriched item: the d1 line of exView1. -/
def exItem1 : ViewItem :=
  mkViewItem exDishes none { dish_id := "d1", quantity := 2, instructions := none }

/-- Claim C4: every produced ViewOrder's total is the sum of its items'
line totals, and an item whose dish id matches no dish resolves to the
name "Unknown Dish" with line total 0. -/
theorem claim_C4 (f : Feeds) (v : ViewOrder) (hv : v ∈ genOrdersView f) :
    v.total = (v.items.map ViewItem.total).sum
    ∧ ∀ item ∈ v.items,
        f.dishes.find? (fun d => d.id == item.dish_id) = none →
          item.dish_name = "Unknown Dish" ∧ item.total = 0 := by
  simp only [genOrdersView, genOrders, List.mem_map] at hv
  rcases hv with ⟨o, ho, rfl⟩
  constructor
  · simp [mkViewOrder, foldl_add_total]
  · intro item hitem hnone
    simp only [mkViewOrder, List.mem_map] at hitem
    rcases hitem with ⟨it, hit, rfl⟩
    simp only [mkViewItem] at hnone ⊢
    rw [hnone]
    simp [jsOrPrice]

/-- Claim C4 witness: the single order of exFeeds1 has total 100 = 50 × 2,
the sum of its line totals. -/
theorem claim_C4_witness :
    exView1 ∈ genOrdersView exFeeds1
    ∧ exView1.total = (exView1.items.map ViewItem.total).sum :=
  ⟨by decide, (claim_C4 exFeeds1 exView1 (by decide)).1⟩

lemma jsOrPrice_some_nonneg (v : Int) (hv : 0 ≤ v) :
    0 ≤ jsOrPrice (some v) 0 := by
  show 0 ≤ if v = 0 then 0 else v
  split
  · exact le_rfl
  · exact hv

/-- Claim C7: under the spec's assumption that dish prices and item
quantities are non-negative, every line item produced by the aggregator
has a non-negative computed total. -/
theorem claim_C7 (f : Feeds)
    (hd : ∀ d ∈ f.dishes, 0 ≤ d.price)
    (hq : ∀ o ∈ f.orders, ∀ it ∈ o.items, 0 ≤ it.quantity)
    (v : ViewOrder) (hv : v ∈ genOrdersView f)
    (item : ViewItem) (hitem : item ∈ v.items) :
    0 ≤ item.total := by
  simp only [genOrdersView, genOrders, List.mem_map] at hv
  rcases hv with ⟨o, ho, rfl⟩
  have ho2 : o ∈ f.orders := mem_jsSortOrders.mp ho
  simp only [mkViewOrder, List.mem_map] at hitem
  rcases hitem with ⟨it, hit, rfl⟩
  simp only [mkViewItem]
  cases hfind : f.dishes.find? (fun d => d.id == it.dish_id) with
  | none => simp [hfind, jsOrPrice]
  | some d =>
    have hmem : d ∈ f.dishes := List.mem_of_find?_eq_some hfind
    have hp : 0 ≤ d.price := hd d hmem
    have hqit : 0 ≤ it.quantity := hq o ho2 it hit
    exact mul_nonneg (jsOrPrice_some_nonneg d.price hp) hqit

/-- Claim C7 witness: the concrete line item of exFeeds1 (price 50,
quantity 2) has non-negative total. -/
theorem claim_C7_witness :
    ((∀ d ∈ exFeeds1.dishes, 0 ≤ d.price)
     ∧ (∀ o ∈ exFeeds1.orders, ∀ it ∈ o.items, 0 ≤ it.quantity)
     ∧ exView1 ∈ genOrdersView exFeeds1
     ∧ exItem1 ∈ exView1.items)
    ∧ 0 ≤ exItem1.total :=
  ⟨⟨by decide, by decide, by decide, by decide⟩,
    claim_C7 exFeeds1 (by decide) (by decide) exView1 (by decide)
      exItem1 (by decide)⟩

/-- Concrete initial panel state (default tab is preparing, list empty). -/
def exPanel0 : PanelModel :=
  { activeTab := .preparing, filteredOrders := [] }

/-- Claim C6 counterexample: on exFeeds1 (one pending order), after
selecting the pending tab and then applying the optimistic patch of a
successful advance, the visible set contains the order with its patched
status preparing while the selected bucket is still pending — at that
point the visible set is not the set of aggregated orders whose status
equals the selected bucket. -/
theorem claim_C6_counterexample :
    (runPanel exFeeds1 exPanel0
        [PanelStep.selectTab Status.pending,
         PanelStep.patch "o1" Status.preparing]).filteredOrders
      ≠ (genOrdersView exFeeds1).filter (fun o =>
          o.status == (runPanel exFeeds1 exPanel0
            [PanelStep.selectTab Status.pending,
             PanelStep.patch "o1" Status.preparing]).activeTab) := by
  decide

/-- Claim C6 (amended): whenever the filtering effect has just run (after
a tab selection or an upstream feed change), the visible set is exactly
the selected bucket; membership in a bucket is exactly status equality on
the aggregated orders; the four bucket counts sum to the number of
aggregated orders; and no order lies in two distinct buckets. Between a
successful optimistic patch and the next filter run the visible set may
deviate from the selected bucket. -/
theorem claim_C6_amended (f : Feeds) (s : PanelModel) (t : Status) :
    (stepPanel f s (PanelStep.selectTab t)).filteredOrders = bucket f t
    ∧ (stepPanel f s (PanelStep.selectTab t)).activeTab = t
    ∧ (stepPanel f s PanelStep.feedsChanged).filteredOrders = bucket f s.activeTab
    ∧ (∀ o, o ∈ bucket f t ↔ o ∈ genOrdersView f ∧ o.status = t)
    ∧ tabCounts f Status.pending + tabCounts f Status.preparing
        + tabCounts f Status.served + tabCounts f Status.ready
        = (genOrdersView f).length
    ∧ (∀ st1 st2 o, o ∈ bucket f st1 → o ∈ bucket f st2 → st1 = st2) := by
  refine ⟨rfl, rfl, rfl, ?_, ?_, ?_⟩
  · intro o
    simp [bucket, List.mem_filter]
  · exact filter_status_partition (genOrdersView f)
  · intro st1 st2 o h1 h2
    simp only [bucket, List.mem_filter, beq_iff_eq] at h1 h2
    exact h1.2.symm.trans h2.2

/-- Claim C6 amended witness: selecting the pending tab on exFeeds1
exposes exactly the pending bucket. -/
theorem claim_C6_amended_witness :
    (stepPanel exFeeds1 exPanel0 (PanelStep.selectTab Status.pending)).filteredOrders
      = bucket exFeeds1 Status.pending :=
  (claim_C6_amended exFeeds1 exPanel0 Status.pending).1

/-- Claim C8: a confirmed removeItem with a token present issues exactly
one updateOrDeleteOrder call for the order, whose payload is the order's
item list with the target dish id excluded, each submitted entry carrying
only dish_id and quantity; no optimistic local patch is applied in any
outcome; and the Remove button is rendered exactly when the order status
and the item status are both pending. -/
theorem claim_C8 (tk : String) (remoteOk : Bool) (order : ViewOrder)
    (dish_id : String) (fo : List ViewOrder) :
    (handleRemoveItem true (some tk) remoteOk order dish_id fo).calls
      = [{ order_id := order.order_id
           items := (order.items.filter (fun it => it.dish_id != dish_id)).map
             (fun it => { dish_id := it.dish_id, quantity := it.quantity }) }]
    ∧ (handleRemoveItem true (some tk) remoteOk order dish_id fo).filteredOrders
        = fo
    ∧ (∀ ost ist, removeShown ost ist = true
        ↔ ost = Status.pending ∧ ist = Status.pending) := by
  have hgate : ∀ ost ist, removeShown ost ist = true
      ↔ ost = Status.pending ∧ ist = Status.pending := by
    intro ost ist
    cases ost <;> cases ist <;> simp [removeShown]
  cases remoteOk <;> exact ⟨rfl, rfl, hgate⟩

/-- Claim C8 witness: removing dish d9 from the concrete pending order
leaves the visible orders untouched. -/
theorem claim_C8_witness :
    (handleRemoveItem true (some "tk") true exViewPending "d9" []).filteredOrders
      = [] :=
  (claim_C8 "tk" true exViewPending "d9" []).2.1

/-- Claim C10: a confirmed removeItem excludes from the submitted list
every entry whose dish id equals the target (all duplicates at once), and
when no line item matches the target the call is still issued with the
full, unchanged projected item list. -/
theorem claim_C10 (tk : String) (remoteOk : Bool) (order : ViewOrder)
    (dish_id : String) (fo : List ViewOrder) :
    ∃ c, (handleRemoveItem true (some tk) remoteOk order dish_id fo).calls = [c]
      ∧ c.order_id = order.order_id
      ∧ (∀ si ∈ c.items, si.dish_id ≠ dish_id)
      ∧ ((∀ it ∈ order.items, it.dish_id ≠ dish_id) →
          c.items = order.items.map
            (fun it => ({ dish_id := it.dish_id, quantity := it.quantity } : SubmitItem))) := by
  refine ⟨{ order_id := order.order_id
            items := (order.items.filter (fun it => it.dish_id != dish_id)).map
              (fun it => { dish_id := it.dish_id, quantity := it.quantity }) },
          ?_, rfl, ?_, ?_⟩
  · cases remoteOk <;> rfl
  · intro si hsi
    simp only [List.mem_map] at hsi
    rcases hsi with ⟨it, hit, rfl⟩
    have := (List.mem_filter.mp hit).2
    simpa using this
  · intro hnone
    rw [List.filter_eq_self.mpr]
    intro it hit
    simpa using hnone it hit

/-- Claim C10 witness: on the concrete pending order with an empty item
list, the confirmed removal still issues exactly one call. -/
theorem claim_C10_witness :
    (handleRemoveItem true (some "tk") true exViewPending "d1" []).calls.length
      = 1 := by
  obtain ⟨c, hc, _⟩ := claim_C10 "tk" true exViewPending "d1" []
  rw [hc]
  rfl

/-- Claim C9 counterexample: from the idle guard state, starting order A
and then order B is a legal event sequence; afterwards A is still in
flight yet its button is no longer disabled, and a second start of A is
permitted — putting A in flight twice. The single loadingOrderId slot does
not hold the guard per order. -/
theorem claim_C9_counterexample :
    runGuard { loadingOrderId := none, inFlight := [] }
        [GuardStep.start "A", GuardStep.start "B"]
      = some { loadingOrderId := some "B", inFlight := ["B", "A"] }
    ∧ "A" ∈ (["B", "A"] : List String)
    ∧ disabledFor { loadingOrderId := some "B", inFlight := ["B", "A"] } "A"
        = false
    ∧ stepGuard { loadingOrderId := some "B", inFlight := ["B", "A"] }
        (GuardStep.start "A")
      = some { loadingOrderId := some "A", inFlight := ["A", "B", "A"] } := by
  decide

/-- Claim C9 (amended): immediately after an order's transition starts,
that order is marked loading: its own action is disabled (a second start
of the same order is refused) while every other order stays actionable.
The marker is a single shared slot, so this protection lasts only until
another order's transition starts or any handler finishes, either of
which overwrites or clears the slot even if the first transition is still
in flight. -/
theorem claim_C9_amended (s : GuardState) (a b : String) (hab : a ≠ b)
    (s1 : GuardState) (h : stepGuard s (GuardStep.start a) = some s1) :
    stepGuard s1 (GuardStep.start a) = none
    ∧ disabledFor s1 a = true
    ∧ disabledFor s1 b = false
    ∧ a ∈ s1.inFlight := by
  by_cases hd : disabledFor s a = true
  · simp [stepGuard, hd] at h
  · have hs1 : s1 = { loadingOrderId := some a, inFlight := a :: s.inFlight } := by
      simp [stepGuard, hd] at h
      exact h.symm
    subst hs1
    refine ⟨?_, ?_, ?_, List.mem_cons_self a s.inFlight⟩
    · simp [stepGuard, disabledFor]
    · simp [disabledFor]
    · simp [disabledFor, hab]

/-- Claim C9 amended witness: the amended theorem applied to orders A and
B from the idle guard state. -/
theorem claim_C9_amended_witness :
    ("A" ≠ "B"
     ∧ stepGuard { loadingOrderId := none, inFlight := [] }
         (GuardStep.start "A")
       = some { loadingOrderId := some "A", inFlight := ["A"] })
    ∧ stepGuard { loadingOrderId := some "A", inFlight := ["A"] }
        (GuardStep.start "A") = none :=
  ⟨⟨by decide, by decide⟩,
    (claim_C9_amended { loadingOrderId := none, inFlight := [] } "A" "B"
      (by decide) { loadingOrderId := some "A", inFlight := ["A"] }
      (by decide)).1⟩
